import Mathlib

/-!
Verification of the blogin comment/post microservices.

The data model and HTTP handlers are embedded shallowly from the Python
source (`app/routers/comments.py`, `app/routers/posts.py`,
`app/schemas.py`, `app/models.py`).  Service-layer functions whose source
is not available are modelled from the specification and marked
`Modelled from the spec:` in their doc comments.  HTTP outcomes are
`Except Nat α` where the `Nat` is the HTTP status code; the database is a
list of records threaded through each handler.
-/

namespace Blogin

/-- UUIDs are only compared for equality; model them as naturals. -/
abbrev UUID := Nat

/-- A calendar timestamp with the fields `strftime` needs.
Embeds Python `datetime` as far as the format string
`'%b %d, %Y %I:%M %p'` observes it. -/
structure DateTime where
  year : Nat
  month : Nat
  day : Nat
  hour : Nat
  minute : Nat
  deriving DecidableEq, Repr

/-- `%b`: abbreviated month name, as CPython renders months 1-12. -/
def monthAbbrev : Nat → String
  | 1 => "Jan" | 2 => "Feb" | 3 => "Mar" | 4 => "Apr"
  | 5 => "May" | 6 => "Jun" | 7 => "Jul" | 8 => "Aug"
  | 9 => "Sep" | 10 => "Oct" | 11 => "Nov" | 12 => "Dec"
  | _ => "???"

/-- Zero-padded two-digit rendering (`%d`, `%I`, `%M`). -/
def pad2 (n : Nat) : String :=
  if n < 10 then "0" ++ toString n else toString n

/-- `%I`: hour on a 12-hour clock (00-23 input, 01-12 output). -/
def hour12 (h : Nat) : Nat :=
  if h % 12 = 0 then 12 else h % 12

/-- `%p`: AM for hours 0-11, PM for hours 12-23. -/
def meridiem (h : Nat) : String :=
  if h < 12 then "AM" else "PM"

/-- Embeds `self.edited_at.strftime('%b %d, %Y %I:%M %p')` from
`CommentInDB.compute_edited_flag` (schemas.py lines 39-41). -/
def strftimeEdited (dt : DateTime) : String :=
  monthAbbrev dt.month ++ " " ++ pad2 dt.day ++ ", " ++ toString dt.year
    ++ " " ++ pad2 (hour12 dt.hour) ++ ":" ++ pad2 dt.minute
    ++ " " ++ meridiem dt.hour

/-- A row of the `comments.comments` table (models.py).
`created_at`/`updated_at` are naturals ordered by creation instant;
`edited_at` keeps calendar structure because the schema formats it. -/
structure Comment where
  id : UUID
  post_id : UUID
  author_id : UUID
  parent_id : Option UUID
  content : String
  is_deleted : Bool
  created_at : Nat
  updated_at : Nat
  edited_at : Option DateTime
  deriving DecidableEq, Repr

/-- The `CommentInDB`/`CommentResponse` pydantic model after its
`compute_edited_flag` validator ran (schemas.py lines 20-46). -/
structure CommentResponse where
  id : UUID
  post_id : UUID
  author_id : UUID
  parent_id : Option UUID
  content : String
  is_deleted : Bool
  created_at : Nat
  updated_at : Nat
  edited_at : Option DateTime
  edited : Bool
  edited_at_formatted : Option String
  deriving DecidableEq, Repr

/-- Embeds `CommentInDB.compute_edited_flag` (schemas.py lines 35-42):
`edited` is set to `edited_at is not None`, and when `edited_at` is
present the display string is recomputed as
`f"edited - {ts.strftime('%b %d, %Y %I:%M %p')}"`. -/
def toCommentResponse (c : Comment) : CommentResponse :=
  { id := c.id
    post_id := c.post_id
    author_id := c.author_id
    parent_id := c.parent_id
    content := c.content
    is_deleted := c.is_deleted
    created_at := c.created_at
    updated_at := c.updated_at
    edited_at := c.edited_at
    edited := c.edited_at.isSome
    edited_at_formatted :=
      c.edited_at.map (fun dt => "edited - " ++ strftimeEdited dt) }

/-- The comment store: the rows of the `comments.comments` table in
insertion order. -/
abbrev CommentDB := List Comment

/-- Modelled from the spec: `CommentService.get_by_id` (service layer
not in src/) fetches the row with the given id. -/
def findComment (db : CommentDB) (cid : UUID) : Option Comment :=
  db.find? (fun c => c.id == cid)

/-- Sibling order: ascending `created_at`. -/
def createdLe (a b : Comment) : Prop := a.created_at ≤ b.created_at

instance : DecidableRel createdLe := fun a b => Nat.decLe a.created_at b.created_at

instance : IsTotal Comment createdLe := ⟨fun a b => Nat.le_total a.created_at b.created_at⟩

instance : IsTrans Comment createdLe := ⟨fun _ _ _ => Nat.le_trans⟩

/-- The non-soft-deleted comments whose `parent_id` is the given id, in
table order. -/
def childrenRaw (db : CommentDB) (cid : UUID) : List Comment :=
  db.filter (fun x => x.parent_id == some cid && !x.is_deleted)

/-- Modelled from the spec: the reply query of
`CommentService.build_comment_tree` (service layer not in src/) returns
the non-deleted children of a comment ordered ascending by
`created_at`. -/
def childrenOf (db : CommentDB) (cid : UUID) : List Comment :=
  List.insertionSort createdLe (childrenRaw db cid)

/-- The `CommentWithReplies` response shape (schemas.py lines 49-50): a
comment together with an ordered list of reply subtrees. -/
inductive CommentTree where
  | mk (root : Comment) (replies : List CommentTree)

def CommentTree.root : CommentTree → Comment
  | .mk c _ => c

def CommentTree.replies : CommentTree → List CommentTree
  | .mk _ rs => rs

/-- Modelled from the spec: `CommentService.build_comment_tree` (service
layer not in src/) recursively collects, under each node, the
non-deleted comments whose `parent_id` is that node, in ascending
`created_at` order.  The Python recursion is depth-unbounded; here the
depth is bounded by a `fuel` argument, which the handler instantiates
with `db.length + 1` - enough for any database whose parent links are
acyclic, so on such databases the two agree. -/
def buildCommentTree (db : CommentDB) : Nat → Comment → CommentTree
  | 0, c => .mk c []
  | fuel+1, c => .mk c ((childrenOf db c.id).map (buildCommentTree db fuel))

/-- Embeds the handler `get_comment` (comments.py lines 83-99): look the
comment up; absent means 404; otherwise return the reply tree when
`include_replies` is set and the bare comment when it is not. -/
def getComment (db : CommentDB) (cid : UUID) (include_replies : Bool) :
    Except Nat CommentTree :=
  match findComment db cid with
  | none => .error 404
  | some c =>
    if include_replies then .ok (buildCommentTree db (db.length + 1) c)
    else .ok (.mk c [])

/-- The reply-tree property: at every node, the children's roots are
exactly the non-deleted comments of the store whose `parent_id` is that
node's id, ordered ascending by `created_at`. -/
inductive IsReplyTree (db : CommentDB) : CommentTree → Prop where
  | mk (c : Comment) (rs : List CommentTree)
      (hperm : List.Perm (rs.map CommentTree.root) (childrenRaw db c.id))
      (hsorted : List.Sorted createdLe (rs.map CommentTree.root))
      (hrec : ∀ t ∈ rs, IsReplyTree db t) :
      IsReplyTree db (.mk c rs)

/-- Well-formedness of the comment store: every reply was created
strictly after its parent.  This rules out the cyclic `parent_id`
corruption the spec flags as an open question. -/
def WellFormed (db : CommentDB) : Prop :=
  ∀ k ∈ db, ∀ c ∈ db, k.parent_id = some c.id → c.created_at < k.created_at

instance (db : CommentDB) : Decidable (WellFormed db) :=
  inferInstanceAs (Decidable (∀ k ∈ db, ∀ c ∈ db,
    k.parent_id = some c.id → c.created_at < k.created_at))

/-- How many rows were created strictly after `c`: the termination
measure of the tree recursion. -/
def laterCount (db : CommentDB) (c : Comment) : Nat :=
  (db.filter (fun x => decide (c.created_at < x.created_at))).length

/-- A JWT bearer token as far as `jose.jwt.decode` observes it: the key
it was signed with, the algorithm of its header, and its `sub` claim
(carried here already parsed into a user id when present). -/
structure JwtToken where
  signedWith : String
  alg : String
  sub : Option UUID
  deriving DecidableEq, Repr

/-- Embeds `jwt.decode(token, key, algorithms=[alg])` from the `jose`
library: decoding yields the payload's subject iff the signature
verifies under `key` and the header algorithm is the configured one;
otherwise it raises `JWTError`, modelled as `none`. -/
def jwtDecode (key alg : String) (t : JwtToken) : Option (Option UUID) :=
  if t.signedWith = key ∧ t.alg = alg then some t.sub else none

/-- Embeds `get_current_user_id` (posts.py lines 29-43): a decode
failure or a missing `sub` claim is a 401; otherwise the subject is
returned as the caller's user id. -/
def getCurrentUserId (key alg : String) (t : JwtToken) : Except Nat UUID :=
  match jwtDecode key alg t with
  | none => .error 401
  | some none => .error 401
  | some (some uid) => .ok uid

/-- Modelled from the spec: the bearer scheme (the comment-service
`get_current_user` dependency is not in src/) rejects a request with no
token with 401 - "absent/invalid token → 401" - and otherwise extracts
the verified token's subject exactly as `get_current_user_id` does. -/
def authenticate (key alg : String) (t : Option JwtToken) : Except Nat UUID :=
  match t with
  | none => .error 401
  | some tok => getCurrentUserId key alg tok

/-- The `CommentUpdate` request body (schemas.py lines 16-17). -/
structure CommentUpdate where
  content : Option String
  deriving DecidableEq, Repr

/-- Modelled from the spec: `CommentService.update` (service layer not
in src/) applies the new content when provided; a content edit stamps
`edited_at` and any mutation refreshes `updated_at`. -/
def applyCommentUpdate (c : Comment) (upd : CommentUpdate) (nowTs : Nat)
    (nowDt : DateTime) : Comment :=
  match upd.content with
  | none => { c with updated_at := nowTs }
  | some s =>
    { c with content := s, edited_at := some nowDt, updated_at := nowTs }

/-- Persist a mutated row: replace the row with the same id. -/
def storeComment (db : CommentDB) (c' : Comment) : CommentDB :=
  db.map (fun x => if x.id == c'.id then c' else x)

/-- Embeds `update_comment` (comments.py lines 102-122): 404 when the
comment is absent, 403 when the caller is not its author (the Python
compares `str(comment.author_id)` with the token's subject string;
canonical UUID strings are equal iff the UUIDs are), otherwise the
update is applied and the row stored. -/
def updateComment (db : CommentDB) (cid : UUID) (tok : Option JwtToken)
    (upd : CommentUpdate) (key alg : String) (nowTs : Nat) (nowDt : DateTime) :
    Except Nat CommentResponse × CommentDB :=
  match authenticate key alg tok with
  | .error e => (.error e, db)
  | .ok uid =>
    match findComment db cid with
    | none => (.error 404, db)
    | some c =>
      if c.author_id ≠ uid then (.error 403, db)
      else
        let c' := applyCommentUpdate c upd nowTs nowDt
        (.ok (toCommentResponse c'), storeComment db c')

/-- Modelled from the spec: `CommentService.delete` (service layer not
in src/) soft-deletes the comment only when it exists and the given
caller is its author, reporting success; a missing comment and a
non-author caller both report plain failure ("deliberately conflates
not-found and not-authorized"). -/
def serviceDeleteComment (db : CommentDB) (cid : UUID) (author : UUID) :
    Bool × CommentDB :=
  match findComment db cid with
  | none => (false, db)
  | some c =>
    if c.author_id = author then
      (true, storeComment db { c with is_deleted := true })
    else (false, db)

/-- Embeds `delete_comment` (comments.py lines 125-141): a failed
service delete is a 404 "Comment not found or not authorized"; success
answers `{deleted: true}`, modelled as `true`. -/
def deleteComment (db : CommentDB) (cid : UUID) (tok : Option JwtToken)
    (key alg : String) : Except Nat Bool × CommentDB :=
  match authenticate key alg tok with
  | .error e => (.error e, db)
  | .ok uid =>
    let r := serviceDeleteComment db cid uid
    if r.1 then (.ok true, r.2) else (.error 404, r.2)

/-- The `CommentCreate` request body (schemas.py lines 11-13): content
plus optional `post_id` and `parent_id` - and no author field at all. -/
structure CommentCreate where
  content : String
  post_id : Option UUID
  parent_id : Option UUID
  deriving DecidableEq, Repr

/-- The pydantic constraint on `CommentBase.content`
(schemas.py line 8): 1 to 5000 characters. -/
def contentValid (s : String) : Bool :=
  decide (1 ≤ s.length) && decide (s.length ≤ 5000)

/-- Modelled from the spec: `CommentService.create` (service layer not
in src/) inserts a row carrying the body's content, `post_id` and
`parent_id` together with the passed author id; `created_at` and
`updated_at` are stamped now, `is_deleted` is false and `edited_at`
unset ("never set for creation").  A body without a `post_id` cannot be
stored - the column is non-nullable in models.py - and raises
`ValueError`, modelled as `none`. -/
def serviceCreateComment (db : CommentDB) (body : CommentCreate)
    (author : UUID) (newId : UUID) (nowTs : Nat) :
    Option (Comment × CommentDB) :=
  match body.post_id with
  | none => none
  | some pid =>
    let c : Comment :=
      { id := newId, post_id := pid, author_id := author,
        parent_id := body.parent_id, content := body.content,
        is_deleted := false, created_at := nowTs, updated_at := nowTs,
        edited_at := none }
    some (c, db ++ [c])

/-- Embeds `create_comment` (comments.py lines 24-36): the author id
passed to the service is `uuid.UUID(current_user["user_id"])`, the
verified token subject; a `ValueError` from the service is a 400.  The
pydantic body validation runs before the handler, so an invalid content
length is a 422 that reaches no service code. -/
def createComment (db : CommentDB) (tok : Option JwtToken)
    (body : CommentCreate) (key alg : String) (newId : UUID) (nowTs : Nat) :
    Except Nat CommentResponse × CommentDB :=
  if ¬ contentValid body.content then (.error 422, db)
  else
    match authenticate key alg tok with
    | .error e => (.error e, db)
    | .ok uid =>
      match serviceCreateComment db body uid newId nowTs with
      | none => (.error 400, db)
      | some (c, db') => (.ok (toCommentResponse c), db')

/-- Embeds `create_comment_by_post` (comments.py lines 59-80): the body
is dumped, its `post_id` overridden with the URL path value, rebuilt as
a `CommentCreate`, and handed to the same service create. -/
def createCommentByPost (db : CommentDB) (tok : Option JwtToken)
    (post_id : UUID) (body : CommentCreate) (key alg : String)
    (newId : UUID) (nowTs : Nat) : Except Nat CommentResponse × CommentDB :=
  if ¬ contentValid body.content then (.error 422, db)
  else
    match authenticate key alg tok with
    | .error e => (.error e, db)
    | .ok uid =>
      match serviceCreateComment db { body with post_id := some post_id }
          uid newId nowTs with
      | none => (.error 400, db)
      | some (c, db') => (.ok (toCommentResponse c), db')

/-- A row of the `tags` table as the post handlers serialize it. -/
structure Tag where
  id : UUID
  name : String
  slug : String
  deriving DecidableEq, Repr

/-- A row of the posts table with its tag set, as posts.py reads it. -/
structure Post where
  id : UUID
  author_id : UUID
  title : String
  slug : String
  content : String
  summary : String
  status : String
  view_count : Nat
  created_at : Nat
  updated_at : Nat
  published_at : Option Nat
  tags : List Tag
  deriving DecidableEq, Repr

abbrev PostDB := List Post

/-- Modelled from the spec: `get_post_by_id` (post-service service layer
not in src/) fetches the row with the given id. -/
def findPostById (db : PostDB) (pid : UUID) : Option Post :=
  db.find? (fun p => p.id == pid)

/-- Modelled from the spec: `get_post_by_slug` (post-service service
layer not in src/) fetches the row with the given unique slug. -/
def getPostBySlug (db : PostDB) (slug : String) : Option Post :=
  db.find? (fun p => p.slug == slug)

/-- `str(uuid)`: distinct UUIDs render to distinct canonical strings. -/
def uuidString (u : UUID) : String := toString u

/-- The `{post_identifier}` path segment as the handlers see it: either
a string that parses as a UUID or one that does not. -/
inductive PostIdent where
  | byId (u : UUID)
  | bySlug (s : String)
  deriving DecidableEq, Repr

/-- Embeds the shared lookup of `update_existing_post` and
`delete_existing_post` (posts.py lines 187-196 and 241-250): an
identifier that parses as a UUID is looked up by id and, failing that,
its string form is tried as a slug; any other identifier is looked up
as a slug. -/
def resolvePost (db : PostDB) (ident : PostIdent) : Option Post :=
  match ident with
  | .byId u =>
    match findPostById db u with
    | some p => some p
    | none => getPostBySlug db (uuidString u)
  | .bySlug s => getPostBySlug db s

/-- The `PostUpdate` request body.  Modelled from the spec: the
post-service schemas are not in src/; per the update contract all
fields are optional. -/
structure PostUpdate where
  title : Option String
  content : Option String
  summary : Option String
  status : Option String
  deriving DecidableEq, Repr

/-- Modelled from the spec: `update_post` (post-service service layer
not in src/) applies exactly the provided fields to the author's post
and refreshes `updated_at`. -/
def applyPostUpdate (p : Post) (upd : PostUpdate) (nowTs : Nat) : Post :=
  { p with
    title := upd.title.getD p.title
    content := upd.content.getD p.content
    summary := upd.summary.getD p.summary
    status := upd.status.getD p.status
    updated_at := nowTs }

/-- Persist a mutated post row: replace the row with the same id. -/
def storePost (db : PostDB) (p' : Post) : PostDB :=
  db.map (fun q => if q.id == p'.id then p' else q)

/-- Embeds `update_existing_post` (posts.py lines 177-229): 401 from
auth, 404 when the identifier resolves to no post, 403 when the caller
is not the author, otherwise the update is applied and stored. -/
def updateExistingPost (db : PostDB) (ident : PostIdent)
    (tok : Option JwtToken) (upd : PostUpdate) (key alg : String)
    (nowTs : Nat) : Except Nat Post × PostDB :=
  match authenticate key alg tok with
  | .error e => (.error e, db)
  | .ok uid =>
    match resolvePost db ident with
    | none => (.error 404, db)
    | some p =>
      if p.author_id ≠ uid then (.error 403, db)
      else
        let p' := applyPostUpdate p upd nowTs
        (.ok p', storePost db p')

/-- Embeds `delete_existing_post` (posts.py lines 232-267): 401 from
auth, 404 when absent, 403 when the caller is not the author, otherwise
`db.delete(post)` removes that row. -/
def deleteExistingPost (db : PostDB) (ident : PostIdent)
    (tok : Option JwtToken) (key alg : String) : Except Nat Unit × PostDB :=
  match authenticate key alg tok with
  | .error e => (.error e, db)
  | .ok uid =>
    match resolvePost db ident with
    | none => (.error 404, db)
    | some p =>
      if p.author_id ≠ uid then (.error 403, db)
      else (.ok (), db.eraseP (fun q => q.id == p.id))

/-- Fixture: a comment authored by user 42, used by closed witnesses. -/
def sampleComment : Comment :=
  { id := 1, post_id := 7, author_id := 42, parent_id := none,
    content := "hello", is_deleted := false, created_at := 0,
    updated_at := 0, edited_at := none }

/-- Fixture: a post authored by user 42, used by closed witnesses. -/
def samplePost : Post :=
  { id := 1, author_id := 42, title := "T", slug := "t",
    content := "body", summary := "s", status := "published",
    view_count := 3, created_at := 0, updated_at := 0,
    published_at := none, tags := [] }

/-- Fixture: a token signed with key `"secret"` and algorithm
`"HS256"` whose subject is the given user. -/
def sampleToken (uid : UUID) : JwtToken :=
  { signedWith := "secret", alg := "HS256", sub := some uid }

/-- Fixture: the comment stored by a sample creation request. -/
def sampleStored : Comment :=
  { id := 5, post_id := 9, author_id := 7, parent_id := none,
    content := "hi", is_deleted := false, created_at := 10,
    updated_at := 10, edited_at := none }

/-- Modelled from the spec: `increment_view_count` (post-service service
layer not in src/) bumps the persistent counter of the given post by
exactly one, as an atomic single-statement update. -/
def incrementViewCount (db : PostDB) (pid : UUID) : PostDB :=
  db.map (fun p =>
    if p.id == pid then { p with view_count := p.view_count + 1 } else p)

/-- The `users.profiles` schema as the cross-schema username query
reads it (posts.py lines 118-124): user id to username. -/
abbrev ProfileDB := List (UUID × String)

/-- Embeds `SELECT username FROM users.profiles WHERE user_id = ...`
followed by `result[0] if result else None`. -/
def usernameOf (users : ProfileDB) (uid : UUID) : Option String :=
  (users.find? (fun r => r.1 == uid)).map (fun r => r.2)

/-- The single-post response body of `get_post`, restricted to the
fields the claims observe. -/
structure PostDetail where
  id : UUID
  author_id : UUID
  author_username : Option String
  title : String
  slug : String
  content : String
  view_count : Nat
  deriving DecidableEq, Repr

/-- Embeds `get_post` (posts.py lines 108-149): 404 when no post has
the slug; otherwise `increment_view_count` runs against the store and
the response reports `post.view_count + 1` ("Already incremented"). -/
def getPost (db : PostDB) (users : ProfileDB) (slug : String) :
    Except Nat PostDetail × PostDB :=
  match getPostBySlug db slug with
  | none => (.error 404, db)
  | some p =>
    (.ok { id := p.id, author_id := p.author_id,
           author_username := usernameOf users p.author_id,
           title := p.title, slug := p.slug, content := p.content,
           view_count := p.view_count + 1 },
     incrementViewCount db p.id)

/-- The optional filter parameters of `GET /posts/`
(posts.py lines 50-53). -/
structure PostFilters where
  status : Option String
  author_id : Option UUID
  tag : Option String
  search : Option String
  deriving DecidableEq, Repr

/-- Modelled from the spec: the conjunctive filter of `list_posts`
(post-service service layer not in src/) - status equality, author
equality, tag membership, and free-text search over title and
summary. -/
def matchesFilters (f : PostFilters) (p : Post) : Bool :=
  (match f.status with
   | none => true
   | some s => p.status == s) &&
  (match f.author_id with
   | none => true
   | some a => p.author_id == a) &&
  (match f.tag with
   | none => true
   | some t => p.tags.any (fun tg => tg.slug == t)) &&
  (match f.search with
   | none => true
   | some s => String.containsSubstr p.title s.toSubstring
       || String.containsSubstr p.summary s.toSubstring)

/-- Modelled from the spec: `list_posts` (post-service service layer
not in src/) is a read-only query: it applies the filters
conjunctively, counts all matches, and returns the `skip`/`limit` page
slice joined with each author's username. -/
def list_posts (db : PostDB) (users : ProfileDB) (f : PostFilters)
    (skip limit : Nat) : List (Post × Option String) × Nat :=
  let filtered := db.filter (matchesFilters f)
  (((filtered.drop skip).take limit).map
      (fun p => (p, usernameOf users p.author_id)),
   filtered.length)

/-- The pagination block of the posts listing response
(posts.py lines 94-101). -/
structure Pagination where
  total : Nat
  page : Nat
  limit : Nat
  total_pages : Nat
  has_next : Bool
  has_prev : Bool
  deriving DecidableEq, Repr

/-- The posts listing response: the page of items (post joined with its
author's username) plus pagination metadata. -/
structure PostListResponse where
  items : List (Post × Option String)
  pagination : Pagination
  deriving DecidableEq, Repr

/-- The declarative bounds `Query(1, ge=1)` and `Query(20, ge=1,
le=100)` on `page` and `limit`/`page_size` (posts.py lines 48-49,
comments.py lines 42-43): FastAPI rejects out-of-range values as a
validation error before any handler runs. -/
def pageParamsValid (page limit : Int) : Bool :=
  decide (1 ≤ page) && decide (1 ≤ limit) && decide (limit ≤ 100)

/-- Embeds `list_all_posts` (posts.py lines 46-105): after parameter
validation, `skip = (page - 1) * limit`, the query runs read-only, and
`total_pages = (total + limit - 1) // limit`. -/
def listAllPosts (db : PostDB) (users : ProfileDB) (page limit : Int)
    (f : PostFilters) : Except Nat PostListResponse × PostDB :=
  if ¬ pageParamsValid page limit then (.error 422, db)
  else
    let p := page.toNat
    let l := limit.toNat
    let r := list_posts db users f ((p - 1) * l) l
    let tp := (r.2 + l - 1) / l
    (.ok { items := r.1,
           pagination :=
             { total := r.2, page := p, limit := l, total_pages := tp,
               has_next := decide (p < tp), has_prev := decide (1 < p) } },
     db)

/-- Modelled from the spec: `CommentService.get_by_post` (service layer
not in src/) pages through the post's non-deleted comments in creation
(insertion) order, returning the page slice and the total count. -/
def get_by_post (db : CommentDB) (pid : UUID) (page page_size : Nat) :
    List Comment × Nat :=
  let items := db.filter (fun c => c.post_id == pid && !c.is_deleted)
  ((items.drop ((page - 1) * page_size)).take page_size, items.length)

/-- The `PaginatedResponse` envelope of the comments listing
(schemas.py lines 68-72), with its data page. -/
structure CommentPage where
  items : List Comment
  total : Nat
  page : Nat
  page_size : Nat
  total_pages : Nat
  deriving DecidableEq, Repr

/-- Embeds `get_comments_by_post` (comments.py lines 39-56): after
parameter validation the service pages the comments and
`total_pages = (total + page_size - 1) // page_size`. -/
def getCommentsByPost (db : CommentDB) (pid : UUID)
    (page page_size : Int) : Except Nat CommentPage :=
  if ¬ pageParamsValid page page_size then .error 422
  else
    let p := page.toNat
    let ps := page_size.toNat
    let r := get_by_post db pid p ps
    .ok { items := r.1, total := r.2, page := p, page_size := ps,
          total_pages := (r.2 + ps - 1) / ps }

end Blogin

namespace Blogin

/-- C4: for every comment response produced by the schema validator, the
`edited` boolean is true iff `edited_at` is non-null, and the formatted
display string is exactly `"edited - " ++ strftime` applied to
`edited_at` alone (so it is a pure function of `edited_at`, recomputed
rather than stored on the row). -/
theorem edited_flag_spec (c : Comment) :
    ((toCommentResponse c).edited = true ↔ c.edited_at ≠ none) ∧
    (toCommentResponse c).edited_at_formatted =
      c.edited_at.map (fun dt => "edited - " ++ strftimeEdited dt) ∧
    (∀ c' : Comment, c'.edited_at = c.edited_at →
      (toCommentResponse c').edited_at_formatted =
        (toCommentResponse c).edited_at_formatted) := by
  refine ⟨?_, rfl, ?_⟩
  · cases h : c.edited_at <;> simp [toCommentResponse, h]
  · intro c' h
    simp [toCommentResponse, h]

/-- Closed instance of `edited_flag_spec` at a concrete comment. -/
theorem edited_flag_spec_witness :
    ({ id := 1, post_id := 2, author_id := 3, parent_id := none,
       content := "hi", is_deleted := false, created_at := 0,
       updated_at := 5,
       edited_at := some ⟨2024, 1, 2, 15, 4⟩ : Comment } |>
     toCommentResponse).edited_at_formatted =
      some "edited - Jan 02, 2024 03:04 PM" := by
  have h := edited_flag_spec
    { id := 1, post_id := 2, author_id := 3, parent_id := none,
      content := "hi", is_deleted := false, created_at := 0,
      updated_at := 5, edited_at := some ⟨2024, 1, 2, 15, 4⟩ }
  rw [h.2.1]
  rfl

theorem root_buildCommentTree (db : CommentDB) (fuel : Nat) (c : Comment) :
    (buildCommentTree db fuel c).root = c := by
  cases fuel <;> rfl

theorem length_filter_le_of_imp {α : Type} {p q : α → Bool} :
    ∀ {l : List α}, (∀ x ∈ l, p x = true → q x = true) →
      (l.filter p).length ≤ (l.filter q).length := by
  intro l
  induction l with
  | nil => intro _; simp
  | cons b t ih =>
    intro h
    have ht : ∀ x ∈ t, p x = true → q x = true :=
      fun x hx => h x (List.mem_cons_of_mem b hx)
    by_cases hp : p b = true
    · have hq : q b = true := h b (List.mem_cons_self b t) hp
      simp only [List.filter_cons, hp, hq, if_true, List.length_cons]
      exact Nat.succ_le_succ (ih ht)
    · have hp' : p b = false := by simpa using hp
      by_cases hq : q b = true
      · simp only [List.filter_cons, hp', hq, if_true, Bool.false_eq_true,
          if_false, List.length_cons]
        exact Nat.le_succ_of_le (ih ht)
      · have hq' : q b = false := by simpa using hq
        simp only [List.filter_cons, hp', hq', Bool.false_eq_true, if_false]
        exact ih ht

theorem length_filter_lt_of_imp {α : Type} {p q : α → Bool} {l : List α}
    (h : ∀ x ∈ l, p x = true → q x = true) {a : α} (ha : a ∈ l)
    (hqa : q a = true) (hpa : p a = false) :
    (l.filter p).length < (l.filter q).length := by
  induction l with
  | nil => cases ha
  | cons b t ih =>
    have ht : ∀ x ∈ t, p x = true → q x = true :=
      fun x hx => h x (List.mem_cons_of_mem b hx)
    rcases List.mem_cons.1 ha with rfl | hat
    · simp only [List.filter_cons, hpa, hqa, if_true, Bool.false_eq_true,
        if_false, List.length_cons]
      exact Nat.lt_succ_of_le (length_filter_le_of_imp ht)
    · by_cases hp : p b = true
      · have hq : q b = true := h b (List.mem_cons_self b t) hp
        simp only [List.filter_cons, hp, hq, if_true, List.length_cons]
        exact Nat.succ_lt_succ (ih ht hat)
      · have hp' : p b = false := by simpa using hp
        by_cases hq : q b = true
        · simp only [List.filter_cons, hp', hq, if_true, Bool.false_eq_true,
            if_false, List.length_cons]
          exact Nat.lt_succ_of_lt (ih ht hat)
        · have hq' : q b = false := by simpa using hq
          simp only [List.filter_cons, hp', hq', Bool.false_eq_true, if_false]
          exact ih ht hat

theorem mem_childrenRaw {db : CommentDB} {cid : UUID} {k : Comment}
    (h : k ∈ childrenRaw db cid) :
    k ∈ db ∧ k.parent_id = some cid ∧ k.is_deleted = false := by
  have hmem := List.mem_of_mem_filter h
  have hcond := List.of_mem_filter h
  simp only [Bool.and_eq_true, beq_iff_eq, Bool.not_eq_true'] at hcond
  exact ⟨hmem, hcond.1, hcond.2⟩

theorem isReplyTree_buildCommentTree (db : CommentDB) (hwf : WellFormed db) :
    ∀ fuel : Nat, ∀ c ∈ db, laterCount db c < fuel →
      IsReplyTree db (buildCommentTree db fuel c) := by
  intro fuel
  induction fuel with
  | zero => exact fun c _ h => absurd h (Nat.not_lt_zero _)
  | succ n ih =>
    intro c hc hcount
    have hroots : ((childrenOf db c.id).map (buildCommentTree db n)).map
        CommentTree.root = childrenOf db c.id := by
      rw [List.map_map]
      have hcomp : CommentTree.root ∘ buildCommentTree db n = id :=
        funext fun x => root_buildCommentTree db n x
      rw [hcomp, List.map_id]
    refine IsReplyTree.mk c _ ?_ ?_ ?_
    · rw [hroots]
      exact List.perm_insertionSort createdLe (childrenRaw db c.id)
    · rw [hroots]
      exact List.sorted_insertionSort createdLe (childrenRaw db c.id)
    · intro t ht
      obtain ⟨k, hk, rfl⟩ := List.mem_map.1 ht
      have hkraw : k ∈ childrenRaw db c.id :=
        (List.mem_insertionSort createdLe).1 hk
      obtain ⟨hkdb, hkp, _⟩ := mem_childrenRaw hkraw
      have hlt : c.created_at < k.created_at := hwf k hkdb c hc hkp
      refine ih k hkdb ?_
      have hstrict : laterCount db k < laterCount db c := by
        refine length_filter_lt_of_imp ?_ hkdb ?_ ?_
        · intro x _ hx
          simp only [decide_eq_true_eq] at hx ⊢
          exact Nat.lt_trans hlt hx
        · simpa using hlt
        · simp
      omega

/-- C1: `GET /comments/{id}` with `include_replies` enabled fails with
404 when no comment has the requested id; when one does (and replies
were created after their parents, so parent links are acyclic), it
returns a tree whose root is that comment and in which, at every node,
the children are exactly the non-soft-deleted comments having that
node's id as `parent_id`, ordered ascending by `created_at`; a comment
with no replies therefore yields an empty `replies` sequence. -/
theorem getComment_replyTree (db : CommentDB) (cid : UUID)
    (hwf : WellFormed db) :
    (findComment db cid = none → getComment db cid true = .error 404) ∧
    (∀ c, findComment db cid = some c →
      ∃ t, getComment db cid true = .ok t ∧ t.root = c ∧ IsReplyTree db t) := by
  constructor
  · intro hnone
    simp [getComment, hnone]
  · intro c hsome
    refine ⟨buildCommentTree db (db.length + 1) c, ?_, ?_, ?_⟩
    · simp [getComment, hsome]
    · exact root_buildCommentTree db _ c
    · refine isReplyTree_buildCommentTree db hwf _ c
        (List.mem_of_find?_eq_some hsome) ?_
      exact Nat.lt_succ_of_le (List.length_filter_le _ db)

/-- Closed instance of `getComment_replyTree`: on a two-comment store
the absent id 9 yields 404. -/
theorem getComment_replyTree_witness :
    getComment
      [{ id := 1, post_id := 7, author_id := 3, parent_id := none,
         content := "root", is_deleted := false, created_at := 0,
         updated_at := 0, edited_at := none },
       { id := 2, post_id := 7, author_id := 4, parent_id := some 1,
         content := "reply", is_deleted := false, created_at := 1,
         updated_at := 1, edited_at := none }] 9 true = .error 404 :=
  (getComment_replyTree
      [{ id := 1, post_id := 7, author_id := 3, parent_id := none,
         content := "root", is_deleted := false, created_at := 0,
         updated_at := 0, edited_at := none },
       { id := 2, post_id := 7, author_id := 4, parent_id := some 1,
         content := "reply", is_deleted := false, created_at := 1,
         updated_at := 1, edited_at := none }] 9 (by decide)).1 (by rfl)

/-- C9: for every bearer-protected operation, an absent token, a token
whose signature does not verify under the shared key and fixed
algorithm, and a token lacking a `sub` claim all fail with 401, while
the subject of an accepted token becomes the caller's user id. -/
theorem bearer_auth_spec (key alg : String) :
    (authenticate key alg none = .error 401) ∧
    (∀ t : JwtToken, ¬ (t.signedWith = key ∧ t.alg = alg) →
      authenticate key alg (some t) = .error 401) ∧
    (∀ t : JwtToken, t.sub = none →
      authenticate key alg (some t) = .error 401) ∧
    (∀ (t : JwtToken) (uid : UUID), t.signedWith = key → t.alg = alg →
      t.sub = some uid → authenticate key alg (some t) = .ok uid) := by
  refine ⟨rfl, ?_, ?_, ?_⟩
  · intro t hbad
    simp [authenticate, getCurrentUserId, jwtDecode, hbad]
  · intro t hsub
    by_cases hok : t.signedWith = key ∧ t.alg = alg
    · simp [authenticate, getCurrentUserId, jwtDecode, hok, hsub]
    · simp [authenticate, getCurrentUserId, jwtDecode, hok]
  · intro t uid hkey halg hsub
    simp [authenticate, getCurrentUserId, jwtDecode, hkey, halg, hsub]

/-- Closed instance of `bearer_auth_spec`: a well-signed token with
subject 42 authenticates as user 42. -/
theorem bearer_auth_spec_witness :
    authenticate "secret" "HS256" (some (sampleToken 42)) = .ok 42 :=
  (bearer_auth_spec "secret" "HS256").2.2.2 (sampleToken 42) 42 rfl rfl rfl

/-- C2: updating a comment, updating a post and deleting a post as an
authenticated non-author fail with 403 - 404 when the record is absent
- and leave the store unchanged; deleting a comment as a non-author
fails with 404 and also leaves the store unchanged. -/
theorem nonAuthor_mutations_fail (cdb : CommentDB) (pdb : PostDB)
    (cid : UUID) (ident : PostIdent) (tok : Option JwtToken)
    (cupd : CommentUpdate) (pupd : PostUpdate) (key alg : String)
    (nowTs : Nat) (nowDt : DateTime) (uid : UUID)
    (hauth : authenticate key alg tok = .ok uid) :
    (∀ c, findComment cdb cid = some c → c.author_id ≠ uid →
      updateComment cdb cid tok cupd key alg nowTs nowDt = (.error 403, cdb)) ∧
    (findComment cdb cid = none →
      updateComment cdb cid tok cupd key alg nowTs nowDt = (.error 404, cdb)) ∧
    (∀ p, resolvePost pdb ident = some p → p.author_id ≠ uid →
      updateExistingPost pdb ident tok pupd key alg nowTs = (.error 403, pdb)) ∧
    (resolvePost pdb ident = none →
      updateExistingPost pdb ident tok pupd key alg nowTs = (.error 404, pdb)) ∧
    (∀ p, resolvePost pdb ident = some p → p.author_id ≠ uid →
      deleteExistingPost pdb ident tok key alg = (.error 403, pdb)) ∧
    (resolvePost pdb ident = none →
      deleteExistingPost pdb ident tok key alg = (.error 404, pdb)) ∧
    (∀ c, findComment cdb cid = some c → c.author_id ≠ uid →
      deleteComment cdb cid tok key alg = (.error 404, cdb)) := by
  refine ⟨?_, ?_, ?_, ?_, ?_, ?_, ?_⟩
  · intro c hc hne
    simp [updateComment, hauth, hc, hne]
  · intro hc
    simp [updateComment, hauth, hc]
  · intro p hp hne
    simp [updateExistingPost, hauth, hp, hne]
  · intro hp
    simp [updateExistingPost, hauth, hp]
  · intro p hp hne
    simp [deleteExistingPost, hauth, hp, hne]
  · intro hp
    simp [deleteExistingPost, hauth, hp]
  · intro c hc hne
    simp [deleteComment, hauth, serviceDeleteComment, hc, hne]

/-- Closed instance of `nonAuthor_mutations_fail`: user 7 updating the
comment of user 42 gets a 403 and the store keeps the old row. -/
theorem nonAuthor_mutations_fail_witness :
    updateComment [sampleComment] 1 (some (sampleToken 7)) ⟨none⟩
      "secret" "HS256" 5 ⟨2024, 1, 1, 0, 0⟩ = (.error 403, [sampleComment]) :=
  (nonAuthor_mutations_fail [sampleComment] [samplePost] 1 (.byId 1)
      (some (sampleToken 7)) ⟨none⟩ ⟨none, none, none, none⟩
      "secret" "HS256" 5 ⟨2024, 1, 1, 0, 0⟩ 7 rfl).1
    sampleComment rfl (by decide)

/-- C3: for an authenticated `DELETE /comments/{id}`, the two failure
cases - no such comment, and comment owned by someone else - produce
the literally identical 404 outcome with the store untouched, so they
are indistinguishable to the caller; a successful delete answers
`{deleted: true}` after soft-deleting the row. -/
theorem deleteComment_conflates (db : CommentDB) (cid : UUID)
    (tok : Option JwtToken) (key alg : String) (uid : UUID)
    (hauth : authenticate key alg tok = .ok uid) :
    (findComment db cid = none →
      deleteComment db cid tok key alg = (.error 404, db)) ∧
    (∀ c, findComment db cid = some c → c.author_id ≠ uid →
      deleteComment db cid tok key alg = (.error 404, db)) ∧
    (∀ c, findComment db cid = some c → c.author_id = uid →
      deleteComment db cid tok key alg =
        (.ok true, storeComment db { c with is_deleted := true })) := by
  refine ⟨?_, ?_, ?_⟩
  · intro hc
    simp [deleteComment, hauth, serviceDeleteComment, hc]
  · intro c hc hne
    simp [deleteComment, hauth, serviceDeleteComment, hc, hne]
  · intro c hc heq
    simp [deleteComment, hauth, serviceDeleteComment, hc, heq]

/-- Closed instance of `deleteComment_conflates`: deleting an absent
comment yields the merged 404. -/
theorem deleteComment_conflates_witness :
    deleteComment [] 1 (some (sampleToken 7)) "secret" "HS256" =
      (.error 404, []) :=
  (deleteComment_conflates [] 1 (some (sampleToken 7)) "secret" "HS256"
      7 rfl).1 rfl

/-- C5: every successfully created comment carries as `author_id` the
verified token subject of the caller: for an arbitrary request body the
stored row's author is the authenticated user, so no body field can
influence it (the `CommentCreate` schema has no author field). -/
theorem createComment_author_from_token (db : CommentDB)
    (tok : Option JwtToken) (body : CommentCreate) (key alg : String)
    (newId : UUID) (nowTs : Nat) (uid : UUID)
    (hauth : authenticate key alg tok = .ok uid) :
    ∀ resp db',
      createComment db tok body key alg newId nowTs = (.ok resp, db') →
      resp.author_id = uid ∧
      ∃ stored, db' = db ++ [stored] ∧ stored.author_id = uid ∧
        resp = toCommentResponse stored := by
  intro resp db' h
  unfold createComment at h
  by_cases hv : contentValid body.content
  · rw [if_neg (by simp [hv]), hauth] at h
    cases hp : body.post_id with
    | none =>
      simp [serviceCreateComment, hp] at h
    | some pid =>
      simp only [serviceCreateComment, hp] at h
      obtain ⟨h1, h2⟩ := Prod.mk.injEq .. ▸ h
      refine ⟨?_, ⟨_, h2.symm, rfl, ?_⟩⟩
      · rw [← Except.ok.inj h1]
        rfl
      · exact (Except.ok.inj h1).symm
  · rw [if_pos (by simp [hv])] at h
    exact absurd (congrArg Prod.fst h) (by simp)

/-- Closed instance of `createComment_author_from_token`: the comment
created by authenticated user 7 is stored with author 7. -/
theorem createComment_author_from_token_witness :
    (toCommentResponse sampleStored).author_id = 7 ∧
    ∃ stored, [sampleStored] = [] ++ [stored] ∧ stored.author_id = 7 ∧
      toCommentResponse sampleStored = toCommentResponse stored :=
  createComment_author_from_token [] (some (sampleToken 7))
    ⟨"hi", some 9, none⟩ "secret" "HS256" 5 10 7 rfl
    (toCommentResponse sampleStored) [sampleStored] rfl

/-- C10: `POST /comments/post/{post_id}` stores the comment under the
`post_id` from the URL path for every request body - a body-supplied
`post_id` is overridden, not rejected: the creation still succeeds. -/
theorem createCommentByPost_overrides (db : CommentDB)
    (tok : Option JwtToken) (pid : UUID) (body : CommentCreate)
    (key alg : String) (newId : UUID) (nowTs : Nat) (uid : UUID)
    (hauth : authenticate key alg tok = .ok uid)
    (hval : contentValid body.content = true) :
    ∃ stored db',
      createCommentByPost db tok pid body key alg newId nowTs =
        (.ok (toCommentResponse stored), db') ∧
      stored.post_id = pid ∧ db' = db ++ [stored] := by
  refine ⟨{ id := newId, post_id := pid, author_id := uid,
            parent_id := body.parent_id, content := body.content,
            is_deleted := false, created_at := nowTs, updated_at := nowTs,
            edited_at := none }, db ++ [_], ?_, rfl, rfl⟩
  unfold createCommentByPost
  rw [if_neg (by simp [hval]), hauth]
  rfl

/-- Closed instance of `createCommentByPost_overrides`: a body asking
for post 3 is stored under post 9, the URL's post id. -/
theorem createCommentByPost_overrides_witness :
    ∃ stored db',
      createCommentByPost [] (some (sampleToken 7)) 9 ⟨"hi", some 3, none⟩
        "secret" "HS256" 5 10 = (.ok (toCommentResponse stored), db') ∧
      stored.post_id = 9 ∧ db' = [] ++ [stored] :=
  createCommentByPost_overrides [] (some (sampleToken 7)) 9
    ⟨"hi", some 3, none⟩ "secret" "HS256" 5 10 7 rfl (by decide)

theorem findPostById_incrementViewCount (db : PostDB) (p : Post)
    (hmem : p ∈ db) (hnodup : (db.map Post.id).Nodup) :
    findPostById (incrementViewCount db p.id) p.id =
      some { p with view_count := p.view_count + 1 } := by
  induction db with
  | nil => cases hmem
  | cons q t ih =>
    rw [List.map_cons, List.nodup_cons] at hnodup
    rcases List.mem_cons.1 hmem with rfl | hmt
    · unfold incrementViewCount findPostById
      rw [List.map_cons, if_pos (by simp)]
      exact List.find?_cons_of_pos _ (by simp)
    · have hne : q.id ≠ p.id := fun h =>
        hnodup.1 (h ▸ List.mem_map_of_mem Post.id hmt)
      unfold incrementViewCount findPostById
      rw [List.map_cons, if_neg (by simp [hne]),
        List.find?_cons_of_neg _ (by simp [hne])]
      exact ih hmt hnodup.2

/-- C6: a successful `GET /posts/{slug}/` increments that post's
persistent `view_count` by exactly one and reports the incremented
count, leaving every other post untouched; an unknown slug is a 404
with no counter changed. -/
theorem getPost_increments_viewCount (db : PostDB) (users : ProfileDB)
    (slug : String) (hnodup : (db.map Post.id).Nodup) :
    (getPostBySlug db slug = none →
      getPost db users slug = (.error 404, db)) ∧
    (∀ p, getPostBySlug db slug = some p →
      ∃ resp, getPost db users slug = (.ok resp, incrementViewCount db p.id) ∧
        resp.view_count = p.view_count + 1 ∧
        findPostById (incrementViewCount db p.id) p.id =
          some { p with view_count := p.view_count + 1 } ∧
        ∀ q ∈ db, q.id ≠ p.id → q ∈ incrementViewCount db p.id) := by
  constructor
  · intro hnone
    simp [getPost, hnone]
  · intro p hsome
    refine ⟨{ id := p.id, author_id := p.author_id,
              author_username := usernameOf users p.author_id,
              title := p.title, slug := p.slug, content := p.content,
              view_count := p.view_count + 1 }, ?_, rfl, ?_, ?_⟩
    · simp [getPost, hsome]
    · exact findPostById_incrementViewCount db p
        (List.mem_of_find?_eq_some hsome) hnodup
    · intro q hq hne
      refine List.mem_map.2 ⟨q, hq, ?_⟩
      rw [if_neg (by simp [hne])]

/-- Closed instance of `getPost_increments_viewCount`: fetching the
sample post by its slug bumps its stored counter from 3 to 4. -/
theorem getPost_increments_viewCount_witness :
    ∃ resp,
      getPost [samplePost] [] "t" =
        (.ok resp, incrementViewCount [samplePost] samplePost.id) ∧
      resp.view_count = samplePost.view_count + 1 ∧
      findPostById (incrementViewCount [samplePost] samplePost.id)
          samplePost.id =
        some { samplePost with view_count := samplePost.view_count + 1 } ∧
      ∀ q ∈ [samplePost], q.id ≠ samplePost.id →
        q ∈ incrementViewCount [samplePost] samplePost.id :=
  (getPost_increments_viewCount [samplePost] [] "t" (by decide)).2
    samplePost rfl

/-- C7: `GET /posts/` returns the listing without touching the post
store, for every combination of page, limit, status, author, tag and
search parameters - so every post's `view_count` is unchanged. -/
theorem listAllPosts_preserves_store (db : PostDB) (users : ProfileDB)
    (page limit : Int) (f : PostFilters) :
    (listAllPosts db users page limit f).2 = db := by
  by_cases h : pageParamsValid page limit
  · simp [listAllPosts, h]
  · simp [listAllPosts, h]

theorem ceil_div_le_mul (total ps : Nat) (hps : 0 < ps) :
    total ≤ ps * ((total + ps - 1) / ps) ∧
    ∀ k, total ≤ ps * k → (total + ps - 1) / ps ≤ k := by
  constructor
  · have h1 := le_smul_ceilDiv (α := ℕ) (β := ℕ) hps (b := total)
    rw [Nat.ceilDiv_eq_add_pred_div] at h1
    simpa [smul_eq_mul] using h1
  · intro k hk
    have h2 := (ceilDiv_le_iff_le_mul (α := ℕ) hps
      (b := total) (c := k)).2 hk
    rwa [Nat.ceilDiv_eq_add_pred_div] at h2

/-- C8: for both paginated listings (comments by post, posts listing),
out-of-range `page`/`page_size` values are rejected as a validation
error; on valid parameters `total_pages` is exactly the integer ceiling
of `total / page_size` (it is the least `k` with
`total ≤ page_size * k`), the metadata echoes the request, `total`
counts all matching records, and a page beyond `total_pages` yields an
empty item list rather than an error. -/
theorem pagination_spec (cdb : CommentDB) (pdb : PostDB)
    (users : ProfileDB) (pid : UUID) (f : PostFilters) (page size : Int) :
    (¬ (1 ≤ page ∧ 1 ≤ size ∧ size ≤ 100) →
      getCommentsByPost cdb pid page size = .error 422 ∧
      listAllPosts pdb users page size f = (.error 422, pdb)) ∧
    (1 ≤ page → 1 ≤ size → size ≤ 100 →
      (∃ resp, getCommentsByPost cdb pid page size = .ok resp ∧
        resp.total_pages = (resp.total + size.toNat - 1) / size.toNat ∧
        resp.total ≤ size.toNat * resp.total_pages ∧
        (∀ k, resp.total ≤ size.toNat * k → resp.total_pages ≤ k) ∧
        (resp.total_pages < page.toNat → resp.items = []) ∧
        resp.page = page.toNat ∧ resp.page_size = size.toNat ∧
        resp.total = (cdb.filter
          (fun c => c.post_id == pid && !c.is_deleted)).length) ∧
      (∃ resp, listAllPosts pdb users page size f = (.ok resp, pdb) ∧
        resp.pagination.total_pages =
          (resp.pagination.total + size.toNat - 1) / size.toNat ∧
        resp.pagination.total ≤ size.toNat * resp.pagination.total_pages ∧
        (∀ k, resp.pagination.total ≤ size.toNat * k →
          resp.pagination.total_pages ≤ k) ∧
        (resp.pagination.total_pages < page.toNat → resp.items = []) ∧
        resp.pagination.page = page.toNat ∧
        resp.pagination.limit = size.toNat ∧
        resp.pagination.total = (pdb.filter (matchesFilters f)).length)) := by
  constructor
  · intro hbad
    have hv : ¬ (pageParamsValid page size = true) := by
      simpa [pageParamsValid, and_assoc] using hbad
    constructor
    · unfold getCommentsByPost
      rw [if_pos hv]
    · unfold listAllPosts
      rw [if_pos hv]
  · intro hp hs hs100
    have hv : pageParamsValid page size = true := by
      simp [pageParamsValid, and_assoc, hp, hs, hs100]
    have hps : 0 < size.toNat := by omega
    have hceil := ceil_div_le_mul
    constructor
    · refine ⟨{ items := ((cdb.filter
                    (fun c => c.post_id == pid && !c.is_deleted)).drop
                    ((page.toNat - 1) * size.toNat)).take size.toNat,
                total := (cdb.filter
                    (fun c => c.post_id == pid && !c.is_deleted)).length,
                page := page.toNat, page_size := size.toNat,
                total_pages := ((cdb.filter
                    (fun c => c.post_id == pid && !c.is_deleted)).length
                    + size.toNat - 1) / size.toNat },
          ?_, rfl, ?_, ?_, ?_, rfl, rfl, rfl⟩
      · unfold getCommentsByPost
        rw [if_neg (not_not_intro hv)]
        rfl
      · exact (ceil_div_le_mul _ _ hps).1
      · exact (ceil_div_le_mul _ _ hps).2
      · intro hbeyond
        replace hbeyond : (((cdb.filter
            (fun c => c.post_id == pid && !c.is_deleted)).length
              + size.toNat - 1) / size.toNat) < page.toNat := hbeyond
        show ((List.drop _ _).take _) = []
        rw [List.drop_eq_nil_of_le, List.take_nil]
        have h1 := (ceil_div_le_mul ((cdb.filter
          (fun c => c.post_id == pid && !c.is_deleted)).length)
          size.toNat hps).1
        have h2 : (((cdb.filter
            (fun c => c.post_id == pid && !c.is_deleted)).length
              + size.toNat - 1) / size.toNat) ≤ page.toNat - 1 := by
          omega
        calc (cdb.filter
            (fun c => c.post_id == pid && !c.is_deleted)).length
            ≤ size.toNat * (((cdb.filter
              (fun c => c.post_id == pid && !c.is_deleted)).length
                + size.toNat - 1) / size.toNat) := h1
          _ ≤ size.toNat * (page.toNat - 1) :=
            Nat.mul_le_mul_left _ h2
          _ = (page.toNat - 1) * size.toNat := Nat.mul_comm _ _
    · refine ⟨{ items := (((pdb.filter (matchesFilters f)).drop
                    ((page.toNat - 1) * size.toNat)).take size.toNat).map
                    (fun p => (p, usernameOf users p.author_id)),
                pagination :=
                  { total := (pdb.filter (matchesFilters f)).length,
                    page := page.toNat, limit := size.toNat,
                    total_pages := ((pdb.filter (matchesFilters f)).length
                        + size.toNat - 1) / size.toNat,
                    has_next := decide (page.toNat <
                        ((pdb.filter (matchesFilters f)).length
                        + size.toNat - 1) / size.toNat),
                    has_prev := decide (1 < page.toNat) } },
          ?_, rfl, ?_, ?_, ?_, rfl, rfl, rfl⟩
      · unfold listAllPosts
        rw [if_neg (not_not_intro hv)]
        rfl
      · exact (ceil_div_le_mul _ _ hps).1
      · exact (ceil_div_le_mul _ _ hps).2
      · intro hbeyond
        replace hbeyond : (((pdb.filter (matchesFilters f)).length
              + size.toNat - 1) / size.toNat) < page.toNat := hbeyond
        show (((List.drop _ _).take _).map _) = []
        rw [List.drop_eq_nil_of_le, List.take_nil, List.map_nil]
        have h1 := (ceil_div_le_mul
          ((pdb.filter (matchesFilters f)).length) size.toNat hps).1
        have h2 : (((pdb.filter (matchesFilters f)).length
              + size.toNat - 1) / size.toNat) ≤ page.toNat - 1 := by
          omega
        calc (pdb.filter (matchesFilters f)).length
            ≤ size.toNat * (((pdb.filter (matchesFilters f)).length
                + size.toNat - 1) / size.toNat) := h1
          _ ≤ size.toNat * (page.toNat - 1) :=
            Nat.mul_le_mul_left _ h2
          _ = (page.toNat - 1) * size.toNat := Nat.mul_comm _ _

/-- Closed instance of `pagination_spec`: page 0 is rejected by both
listings as a validation error. -/
theorem pagination_spec_witness :
    getCommentsByPost [] 3 0 5 = .error 422 ∧
    listAllPosts [] [] 0 5 ⟨none, none, none, none⟩ = (.error 422, []) :=
  (pagination_spec [] [] [] 3 ⟨none, none, none, none⟩ 0 5).1 (by decide)

end Blogin
